import Mathlib

set_option autoImplicit false

/-!
Shallow embedding of the `AllocatedArray` class from `src/array.ts`.

Modelling conventions:
* JavaScript numbers are modelled as `Int` (every value the repository's code
  and tests store is an integer; floating-point specials are out of scope of
  the claims settled here).
* The backing storage `this.array` is a `List Int` whose length equals the
  declared size (the constructor fills indices `0 .. size-1` with `0`).
* The private field `this.#length` is modelled as an `Int`, not a `Nat`,
  because the code can drive it below zero (`popHead` on an empty array).
* `a[i] = v` on a JS array at a negative index creates a non-index property
  and leaves the array elements untouched; `setAt` models this as a no-op.
  A read `a[i]` at a negative or past-the-end index yields `undefined`;
  no reachable code path observes such a read, and `getAt` returns `0` there.
* Each `for` loop is compiled to a structurally recursive function over a
  `fuel : Nat` argument equal to the exact number of remaining iterations,
  so that the loop-counter condition `i < bound` holds iff `fuel > 0`.
  This keeps every definition computable by kernel reduction.
* Thrown exceptions (`OutOfBoundsError`, `InvalidRangeError`,
  `SizeTooSmallError`) become `Except Err` results.  The spec's
  `CapacityExceeded` and `IndexOutOfBounds` are both `OutOfBoundsError`
  in the code, hence both map to `Err.outOfBounds`.
-/

/-- Error classes thrown by `src/array.ts`: `OutOfBoundsError` (used both for
index errors and for capacity overflow), `InvalidRangeError`, and
`SizeTooSmallError`. -/
inductive Err where
  | outOfBounds
  | invalidRange
  | sizeTooSmall
deriving DecidableEq, Repr

/-- State of an `AllocatedArray` instance: the private fields `size`,
`array` and `#length` of the class in `src/array.ts`. -/
structure AllocatedArray where
  size : Int
  array : List Int
  length : Int
deriving DecidableEq, Repr

/-- Write `a[i] = v` for an `Int` index: a JS array write at a negative index
does not touch the array's elements, and `List.set` past the end is a no-op
exactly like the reachable code paths never re-reading such slots. -/
def setAt (a : List Int) (i : Int) (v : Int) : List Int :=
  if 0 ≤ i then a.set i.toNat v else a

/-- Read `a[i]` for an `Int` index, with `0` standing in for `undefined`
at out-of-range indices (no reachable code path performs such a read). -/
def getAt (a : List Int) (i : Int) : Int :=
  if 0 ≤ i then a.getD i.toNat 0 else 0

/-- Write `arr[i] = v` on a growable JS array literal (`between` builds its
result this way): in-range indices are overwritten, the index equal to the
current length appends, larger indices would create holes (rendered as `0`;
`between` only ever assigns at index = current length). -/
def jsSet (l : List Int) (i : Int) (v : Int) : List Int :=
  if i < 0 then l
  else if i.toNat < l.length then l.set i.toNat v
  else l ++ List.replicate (i.toNat - l.length) 0 ++ [v]

namespace AllocatedArray

/-- Constructor `new AllocatedArray(size)`: throws `SizeTooSmallError` when
`size <= 1`, otherwise allocates storage of `size` zeros with `#length = 0`. -/
def make (size : Int) : Except Err AllocatedArray :=
  if size ≤ 1 then .error .sizeTooSmall
  else .ok ⟨size, List.replicate size.toNat 0, 0⟩

/-- Getter `isEmpty`: `this.#length <= 0`. -/
def isEmpty (s : AllocatedArray) : Bool :=
  s.length ≤ 0

/-- Getter `containsOne`: `this.#length == 1`. -/
def containsOne (s : AllocatedArray) : Bool :=
  s.length == 1

/-- Method `push(num)`: throws `OutOfBoundsError` when
`#length + 1 > size`, otherwise stores at index `#length` and increments. -/
def push (s : AllocatedArray) (num : Int) : Except Err AllocatedArray :=
  if s.length + 1 > s.size then .error .outOfBounds
  else .ok { s with array := setAt s.array s.length num, length := s.length + 1 }

/-- Method `pop()`: returns `-1` when `isEmpty`, otherwise decrements
`#length`, zeroes the vacated slot, and returns the new `#length`. -/
def pop (s : AllocatedArray) : Int × AllocatedArray :=
  if s.isEmpty then (-1, s)
  else
    let l := s.length - 1
    (l, { s with array := setAt s.array l 0, length := l })

/-- Loop of `clear()`: `for (i = 0; i < #length; i++) array[i] = 0`,
compiled with `fuel` = number of remaining iterations. -/
def clearLoop : List Int → Nat → Nat → List Int
  | a, _, 0 => a
  | a, i, fuel + 1 => clearLoop (a.set i 0) (i + 1) fuel

/-- Method `clear()`: zeroes `[0, #length)` and sets `#length = 0`. -/
def clear (s : AllocatedArray) : AllocatedArray :=
  { s with array := clearLoop s.array 0 s.length.toNat, length := 0 }

/-- Loop of `popHead()`: `for (i = 0; i < #length; i++) { j = i+1;
if (j >= #length) break; array[i] = array[j]; array[j] = 0 }`.
`n` is `#length` (unchanged during the loop; the decrement happens in the
return statement), `fuel = n - i`. -/
def popHeadLoop (n : Nat) : List Int → Nat → Nat → List Int
  | a, _, 0 => a
  | a, i, fuel + 1 =>
    if i + 1 ≥ n then a
    else popHeadLoop n ((a.set i (a.getD (i + 1) 0)).set (i + 1) 0) (i + 1) fuel

/-- Method `popHead()`: left-shifts the populated region by one and then
executes `return this.#length--`, i.e. returns the OLD `#length` and
decrements it — with no empty-array guard. -/
def popHead (s : AllocatedArray) : Int × AllocatedArray :=
  (s.length,
    { s with array := popHeadLoop s.length.toNat s.array 0 s.length.toNat,
             length := s.length - 1 })

/-- Loop of `sum()`: `for (i = 0; i < #length; i++) sum += array[i]`. -/
def sumLoop : List Int → Int → Nat → Nat → Int
  | _, acc, _, 0 => acc
  | a, acc, i, fuel + 1 => sumLoop a (acc + a.getD i 0) (i + 1) fuel

/-- Method `sum()`: `0` when empty, `array[0]` when `containsOne`, otherwise
the loop accumulation over the populated region. -/
def sum (s : AllocatedArray) : Int :=
  if s.isEmpty then 0
  else if s.containsOne then getAt s.array 0
  else sumLoop s.array 0 0 s.length.toNat

/-- Inner loop of `sort()` (one bubble pass):
`for (j = 0; j < stop; j++) if (array[j] > array[j+1]) swap, swapped = true`,
where `stop = #length - 1 - i`.  Here `fuel = stop - j`. -/
def bubbleInner : List Int → Nat → Bool → Nat → List Int × Bool
  | a, _, sw, 0 => (a, sw)
  | a, j, sw, fuel + 1 =>
    if a.getD j 0 > a.getD (j + 1) 0 then
      bubbleInner ((a.set j (a.getD (j + 1) 0)).set (j + 1) (a.getD j 0)) (j + 1) true fuel
    else bubbleInner a (j + 1) sw fuel

/-- Outer loop of `sort()`: pass `i` of the source runs the inner loop with
bound `#length - 1 - i` and stops early when a pass swaps nothing.  The
source counts `i` upward while `i < #length - 1`; here the inner bound
itself (`stop = #length - 1 - i`) counts down, which is the same iteration
sequence. -/
def bubbleOuter : List Int → Nat → List Int
  | a, 0 => a
  | a, stop + 1 =>
    match bubbleInner a 0 false (stop + 1) with
    | (a2, true) => bubbleOuter a2 stop
    | (a2, false) => a2

/-- Method `sort()`: returns `0` immediately when `isEmpty || containsOne`,
otherwise bubble-sorts the populated region in place.  The non-trivial
return value is `Date.now() - start`, a wall-clock duration that a pure
embedding cannot determine; it is rendered as `none`, while the modelled
early-exit path returns `some 0` exactly as the source returns `0`. -/
def sort (s : AllocatedArray) : Option Int × AllocatedArray :=
  if s.isEmpty || s.containsOne then (some 0, s)
  else (none, { s with array := bubbleOuter s.array (s.length.toNat - 1) })

/-- Loop of `between(start, end)`:
`for (i = 0; i < #length; i++) if (i >= start && i <= end)
arr[i - start] = array[i]`, building a fresh JS array `acc`. -/
def betweenLoop (start endI : Int) : List Int → List Int → Int → Nat → List Int
  | _, acc, _, 0 => acc
  | a, acc, i, fuel + 1 =>
    if i ≥ start ∧ i ≤ endI then
      betweenLoop start endI a (jsSet acc (i - start) (getAt a i)) (i + 1) fuel
    else betweenLoop start endI a acc (i + 1) fuel

/-- Method `between(start, end)`: throws `OutOfBoundsError` when
`start < 0 || end > #length - 1`, then `InvalidRangeError` when
`start > end`, otherwise returns the freshly built inclusive slice.
It never mutates the instance (it is a pure function of the state here). -/
def between (s : AllocatedArray) (start endI : Int) : Except Err (List Int) :=
  if start < 0 ∨ endI > s.length - 1 then .error .outOfBounds
  else if start > endI then .error .invalidRange
  else .ok (betweenLoop start endI s.array [] 0 s.length.toNat)

/-- Loop of `cut(from, to)`: `const len = #length;
for (i = 0; i < len; i++) if (i >= from || i <= to) { array[i] = 0;
this.#length--; }` — note the source's `||`, and that the loop bound `len`
is captured before the decrements.  `cur` tracks the live `#length`. -/
def cutLoop (fromIdx toIdx : Int) : List Int → Int → Int → Nat → List Int × Int
  | a, cur, _, 0 => (a, cur)
  | a, cur, i, fuel + 1 =>
    if i ≥ fromIdx ∨ i ≤ toIdx then
      cutLoop fromIdx toIdx (setAt a i 0) (cur - 1) (i + 1) fuel
    else cutLoop fromIdx toIdx a cur (i + 1) fuel

/-- Method `cut(from, to)`: throws `OutOfBoundsError` when
`from < 0 || to > #length - 1`, then `InvalidRangeError` when `from > to`,
otherwise runs the loop above and returns the resulting `#length`. -/
def cut (s : AllocatedArray) (fromIdx toIdx : Int) : Except Err (Int × AllocatedArray) :=
  if fromIdx < 0 ∨ toIdx > s.length - 1 then .error .outOfBounds
  else if fromIdx > toIdx then .error .invalidRange
  else
    let p := cutLoop fromIdx toIdx s.array s.length 0 s.length.toNat
    .ok (p.2, { s with array := p.1, length := p.2 })

/-- Loop of `reverse()`: `for (i = 0; i < half; i++)` swap `array[i]` with
`array[#length - 1 - i]`; `n` is `#length`, `fuel = half - i`. -/
def reverseLoop (n : Nat) : List Int → Nat → Nat → List Int
  | a, _, 0 => a
  | a, i, fuel + 1 =>
    reverseLoop n ((a.set i (a.getD (n - 1 - i) 0)).set (n - 1 - i) (a.getD i 0)) (i + 1) fuel

/-- Method `reverse()`: no-op when `isEmpty || containsOne`, otherwise the
symmetric swap loop with `half = Math.floor(#length / 2)`. -/
def reverse (s : AllocatedArray) : AllocatedArray :=
  if s.isEmpty || s.containsOne then s
  else { s with array := reverseLoop s.length.toNat s.array 0 (s.length.toNat / 2) }

/-- Body of `merge`'s `for..of` loop: pushes each element in order, letting a
`push` failure propagate (it never fires after `merge`'s up-front check). -/
def pushAll : AllocatedArray → List Int → Except Err AllocatedArray
  | s, [] => .ok s
  | s, x :: rest =>
    match s.push x with
    | .error e => .error e
    | .ok s2 => pushAll s2 rest

/-- Method `merge(arr)`: throws `OutOfBoundsError` up front when
`arr.length + #length > size`, otherwise pushes every element in order and
returns the new `#length`. -/
def merge (s : AllocatedArray) (xs : List Int) : Except Err (Int × AllocatedArray) :=
  if (xs.length : Int) + s.length > s.size then .error .outOfBounds
  else
    match pushAll s xs with
    | .error e => .error e
    | .ok s2 => .ok (s2.length, s2)

end AllocatedArray

/-! ## Helper lemmas about `List.set` / `List.getD` -/

theorem getD_set (a : List Int) (i k : Nat) (v : Int) :
    (a.set i v).getD k 0 = if i = k ∧ i < a.length then v else a.getD k 0 := by
  by_cases h : i = k
  · subst h
    by_cases h2 : i < a.length
    · simp [h2, List.getD_eq_getElem?_getD, List.getElem?_set_self', Nat.lt_irrefl]
    · rw [List.set_eq_of_length_le (by omega)]
      simp [h2]
  · simp [h, List.getD_eq_getElem?_getD, List.getElem?_set_ne h]

theorem getD_of_length_le (a : List Int) (k : Nat) (h : a.length ≤ k) :
    a.getD k 0 = 0 := by
  simp [List.getD_eq_getElem?_getD, List.getElem?_eq_none h]

theorem swapAdjPerm : ∀ (a : List Int) (j : Nat), j + 1 < a.length →
    List.Perm ((a.set j (a.getD (j + 1) 0)).set (j + 1) (a.getD j 0)) a
  | [], j, h => by simp at h
  | [x], j, h => by simp at h
  | x :: y :: t, 0, _ => by
    simpa using List.Perm.swap x y t
  | x :: y :: t, j + 1, h => by
    have ih := swapAdjPerm (y :: t) j (by simpa using h)
    simpa using List.Perm.cons x ih

theorem chainLe (a : List Int) (t : Nat)
    (h : ∀ k, k < t → a.getD k 0 ≤ a.getD (k + 1) 0) :
    ∀ p q, p ≤ q → q ≤ t → a.getD p 0 ≤ a.getD q 0 := by
  intro p q
  induction q with
  | zero => intro hpq _; interval_cases p; exact le_refl _
  | succ q ih =>
    intro hpq hqt
    rcases Nat.eq_or_lt_of_le hpq with rfl | hlt
    · exact le_refl _
    · exact le_trans (ih (by omega) (by omega)) (h q (by omega))

/-! ## Lemmas about `cut` -/

theorem take_succ_set_self : ∀ (a : List Int) (n : Nat) (v : Int), n < a.length →
    (a.set n v).take (n + 1) = a.take n ++ [v]
  | [], n, v, h => by simp at h
  | x :: t, 0, v, _ => by simp
  | x :: t, n + 1, v, h => by
    simp only [List.set_cons_succ, List.take_succ_cons]
    rw [take_succ_set_self t n v (by simpa using h)]
    simp

theorem drop_set_of_lt' : ∀ (a : List Int) (n m : Nat) (v : Int), n < m →
    (a.set n v).drop m = a.drop m
  | [], _, _, _, _ => by simp
  | _ :: _, _, 0, _, h => by omega
  | x :: t, 0, m + 1, v, _ => by simp
  | x :: t, n + 1, m + 1, v, h => by
    simp only [List.set_cons_succ, List.drop_succ_cons]
    exact drop_set_of_lt' t n m v (by omega)

/-- Given `from ≤ to`, the guard `i >= from || i <= to` in `cut`'s loop is
true for every `i`, so every iteration zeroes a slot and decrements. -/
theorem cutLoop_wipes (fromIdx toIdx : Int) (hft : fromIdx ≤ toIdx) :
    ∀ (fuel : Nat) (a : List Int) (cur i : Int), 0 ≤ i → i.toNat + fuel ≤ a.length →
    AllocatedArray.cutLoop fromIdx toIdx a cur i fuel =
      (a.take i.toNat ++ List.replicate fuel 0 ++ a.drop (i.toNat + fuel), cur - fuel) := by
  intro fuel
  induction fuel with
  | zero =>
    intro a cur i _ _
    simp [AllocatedArray.cutLoop]
  | succ fuel ih =>
    intro a cur i hi hlen
    have hcond : i ≥ fromIdx ∨ i ≤ toIdx := by omega
    rw [AllocatedArray.cutLoop, if_pos hcond]
    have hset : setAt a i 0 = a.set i.toNat 0 := by simp [setAt, hi]
    have hlt : i.toNat < a.length := by omega
    rw [hset, ih (a.set i.toNat 0) (cur - 1) (i + 1) (by omega)
      (by rw [List.length_set]; omega)]
    have htn : (i + 1).toNat = i.toNat + 1 := by omega
    rw [htn]
    simp only [Prod.mk.injEq]
    refine ⟨?_, by push_cast; ring⟩
    rw [take_succ_set_self a i.toNat 0 hlt,
      drop_set_of_lt' a i.toNat (i.toNat + 1 + fuel) 0 (by omega)]
    have harith : i.toNat + 1 + fuel = i.toNat + (fuel + 1) := by omega
    rw [harith]
    simp [List.replicate_succ]

/-- Claim C9: whenever `cut`'s validation passes (`0 ≤ from ≤ to ≤ populated
length − 1`), the loop condition `i >= from || i <= to` is a tautology, so
`cut` zeroes every slot of the populated region, sets the populated length to
`0`, and returns `0`. -/
theorem cut_valid_wipes_everything (s : AllocatedArray) (fromIdx toIdx : Int)
    (hf : 0 ≤ fromIdx) (hft : fromIdx ≤ toIdx) (ht : toIdx ≤ s.length - 1)
    (hw : s.length ≤ (s.array.length : Int)) :
    s.cut fromIdx toIdx =
      .ok (0, { size := s.size,
                array := List.replicate s.length.toNat 0 ++ s.array.drop s.length.toNat,
                length := 0 }) := by
  have hlen : 1 ≤ s.length := by omega
  have h0 : s.length - (s.length.toNat : Int) = 0 := by omega
  rw [AllocatedArray.cut, if_neg (by omega), if_neg (by omega)]
  rw [cutLoop_wipes fromIdx toIdx hft s.length.toNat s.array s.length 0 (by omega) (by omega)]
  simp only [Int.toNat_zero, List.take_zero, List.nil_append, Nat.zero_add, h0]

/-- Claim C9 witness: the spec's own example state `[10,20,30,40]` with the
valid call `cut(1,3)` satisfies the hypotheses and the conclusion. -/
theorem cut_valid_wipes_everything_witness :
    (0 ≤ (1 : Int) ∧ (1 : Int) ≤ 3 ∧ (3 : Int) ≤ (4 : Int) - 1 ∧
      (AllocatedArray.mk 6 [10, 20, 30, 40, 0, 0] 4).length ≤
        ((AllocatedArray.mk 6 [10, 20, 30, 40, 0, 0] 4).array.length : Int)) ∧
    (AllocatedArray.mk 6 [10, 20, 30, 40, 0, 0] 4).cut 1 3 =
      .ok (0, { size := (6 : Int),
                array := List.replicate (4 : Nat) 0 ++ [10, 20, 30, 40, 0, 0].drop 4,
                length := (0 : Int) }) := by
  refine ⟨by norm_num, ?_⟩
  exact cut_valid_wipes_everything (AllocatedArray.mk 6 [10, 20, 30, 40, 0, 0] 4) 1 3
    (by norm_num) (by norm_num) (by norm_num) (by norm_num)

/-- Claim C1: the code contradicts the claim.  On the spec's own example
`[10,20,30,40]`, `cut(1,3)` does not leave `[10,40]` with populated length 2:
the `||` in the loop guard wipes every slot and returns populated length 0. -/
theorem cut_spec_example_wiped_instead :
    AllocatedArray.cut ⟨6, [10, 20, 30, 40, 0, 0], 4⟩ 1 3 =
        .ok (0, ⟨6, [0, 0, 0, 0, 0, 0], 0⟩) ∧
      (0 : Int) ≠ 2 := ⟨rfl, by decide⟩

/-- Claim C2 counterexample: on `[10,20,30]` (populated length 3) the call
`cut(1,1)` succeeds (the claim requires `InvalidRange` for `from ≥ to`), and
`cut(0,3)` with `to = populated_length` fails `OutOfBounds` (the claim
requires success). -/
theorem cut_validation_counterexample :
    AllocatedArray.cut ⟨5, [10, 20, 30, 0, 0], 3⟩ 1 1 =
        .ok (0, ⟨5, [0, 0, 0, 0, 0], 0⟩) ∧
      AllocatedArray.cut ⟨5, [10, 20, 30, 0, 0], 3⟩ 0 3 = .error .outOfBounds :=
  ⟨rfl, rfl⟩

/-- Claim C2 (amended): `cut(from, to)` fails `OutOfBounds` exactly when
`from < 0` or `to > populated_length - 1` (so `cut(0, populated_length)`
always fails `OutOfBounds`), otherwise fails `InvalidRange` exactly when
`from > to` (so an in-bounds `cut(from, from)` succeeds), and otherwise
succeeds. -/
theorem cut_validation (s : AllocatedArray) (fromIdx toIdx : Int) :
    ((fromIdx < 0 ∨ toIdx > s.length - 1) ↔ s.cut fromIdx toIdx = .error .outOfBounds) ∧
    (¬(fromIdx < 0 ∨ toIdx > s.length - 1) →
      (fromIdx > toIdx ↔ s.cut fromIdx toIdx = .error .invalidRange)) ∧
    (¬(fromIdx < 0 ∨ toIdx > s.length - 1) → ¬(fromIdx > toIdx) →
      ∃ r, s.cut fromIdx toIdx = .ok r) := by
  by_cases h1 : fromIdx < 0 ∨ toIdx > s.length - 1
  · rw [AllocatedArray.cut, if_pos h1]
    exact ⟨by simp [h1], fun hc => absurd h1 hc, fun hc => absurd h1 hc⟩
  · rw [AllocatedArray.cut, if_neg h1]
    by_cases h2 : fromIdx > toIdx
    · rw [if_pos h2]
      exact ⟨by simp [h1], fun _ => by simp [h2], fun _ hc => absurd h2 hc⟩
    · rw [if_neg h2]
      exact ⟨by simp [h1], fun _ => by simp [h2], fun _ _ => ⟨_, rfl⟩⟩

/-- Claim C2 witness: the amended trichotomy evaluated on the concrete state
`[10,20,30]` with the call `cut(1,1)`. -/
theorem cut_validation_witness :
    (((1 : Int) < 0 ∨ (1 : Int) > (AllocatedArray.mk 5 [10, 20, 30, 0, 0] 3).length - 1) ↔
        (AllocatedArray.mk 5 [10, 20, 30, 0, 0] 3).cut 1 1 = .error .outOfBounds) ∧
    (¬((1 : Int) < 0 ∨ (1 : Int) > (AllocatedArray.mk 5 [10, 20, 30, 0, 0] 3).length - 1) →
      ((1 : Int) > 1 ↔ (AllocatedArray.mk 5 [10, 20, 30, 0, 0] 3).cut 1 1 = .error .invalidRange)) ∧
    (¬((1 : Int) < 0 ∨ (1 : Int) > (AllocatedArray.mk 5 [10, 20, 30, 0, 0] 3).length - 1) →
      ¬((1 : Int) > 1) →
      ∃ r, (AllocatedArray.mk 5 [10, 20, 30, 0, 0] 3).cut 1 1 = .ok r) :=
  cut_validation (AllocatedArray.mk 5 [10, 20, 30, 0, 0] 3) 1 1

/-! ## Lemmas about `popHead` -/

/-- Claim C3: the code contradicts the claim.  `popHead` on an empty array
has no guard: it returns `0` (the claim requires `-1`) and decrements the
populated length to `-1` (the claim requires the state to be unchanged). -/
theorem popHead_empty_mutates :
    AllocatedArray.popHead ⟨2, [0, 0], 0⟩ = (0, ⟨2, [0, 0], -1⟩) ∧
      (0 : Int) ≠ -1 ∧ AllocatedArray.mk 2 [0, 0] (-1) ≠ ⟨2, [0, 0], 0⟩ :=
  ⟨rfl, by decide, by decide⟩

/-- Claim C4: the code contradicts the invariant `0 ≤ populated_length`.
`popHead` on a freshly made empty array drives the populated length to `-1`. -/
theorem popHead_empty_breaks_invariant :
    (AllocatedArray.popHead ⟨3, [0, 0, 0], 0⟩).2.length < 0 := by decide

/-- Claim C10: `popHead` executes `return this.#length--`, so it returns the
OLD populated length — one greater than the populated length after the call —
for every state, in particular every non-empty one. -/
theorem popHead_returns_old_length (s : AllocatedArray) (h : 0 < s.length) :
    (s.popHead).1 = s.length ∧ (s.popHead).1 = (s.popHead).2.length + 1 := by
  exact ⟨rfl, by simp [AllocatedArray.popHead]⟩

/-- Claim C10 witness: `popHead` on `[1,2,3]`. -/
theorem popHead_returns_old_length_witness :
    (0 < (AllocatedArray.mk 6 [1, 2, 3, 0, 0, 0] 3).length) ∧
    ((AllocatedArray.mk 6 [1, 2, 3, 0, 0, 0] 3).popHead.1 =
        (AllocatedArray.mk 6 [1, 2, 3, 0, 0, 0] 3).length ∧
      (AllocatedArray.mk 6 [1, 2, 3, 0, 0, 0] 3).popHead.1 =
        (AllocatedArray.mk 6 [1, 2, 3, 0, 0, 0] 3).popHead.2.length + 1) :=
  ⟨by decide, popHead_returns_old_length (AllocatedArray.mk 6 [1, 2, 3, 0, 0, 0] 3) (by decide)⟩

/-! ## Lemmas about `merge` -/

theorem pushAll_ok : ∀ (xs : List Int) (s : AllocatedArray), 0 ≤ s.length →
    (s.array.length : Int) = s.size → s.length + xs.length ≤ s.size →
    AllocatedArray.pushAll s xs = .ok
      { size := s.size,
        array := s.array.take s.length.toNat ++ xs ++ s.array.drop (s.length.toNat + xs.length),
        length := s.length + xs.length }
  | [], s, _, _, _ => by
    cases s with
    | mk size array length =>
      simp [AllocatedArray.pushAll, List.take_append_drop]
  | x :: rest, s, h0, hl, hcap => by
    have hxs : ((x :: rest).length : Int) = (rest.length : Int) + 1 := by
      simp
    have hcap1 : s.length + 1 ≤ s.size := by
      rw [hxs] at hcap; omega
    have hpush : s.push x = .ok ⟨s.size, s.array.set s.length.toNat x, s.length + 1⟩ := by
      rw [AllocatedArray.push, if_neg (by omega)]
      simp [setAt, h0]
    rw [AllocatedArray.pushAll, hpush]
    show AllocatedArray.pushAll ⟨s.size, s.array.set s.length.toNat x, s.length + 1⟩ rest = _
    rw [pushAll_ok rest ⟨s.size, s.array.set s.length.toNat x, s.length + 1⟩
      (by show (0 : Int) ≤ s.length + 1; omega)
      (by show ((s.array.set s.length.toNat x).length : Int) = s.size
          rw [List.length_set]; omega)
      (by show s.length + 1 + (rest.length : Int) ≤ s.size; rw [hxs] at hcap; omega)]
    have hn : (s.length + 1).toNat = s.length.toNat + 1 := by omega
    have hlt : s.length.toNat < s.array.length := by omega
    simp only [Except.ok.injEq, AllocatedArray.mk.injEq, hn]
    refine ⟨trivial, ?_, by rw [hxs]; ring⟩
    rw [take_succ_set_self s.array s.length.toNat x hlt,
      drop_set_of_lt' s.array s.length.toNat (s.length.toNat + 1 + rest.length) x (by omega)]
    have harith : s.length.toNat + 1 + rest.length = s.length.toNat + (x :: rest).length := by
      simp; omega
    rw [harith]
    simp

/-- Claim C5: `merge` is all-or-nothing.  When
`arr.length + populated_length > capacity` it fails with the capacity error
before any mutation (in this pure embedding a failure returns no state, so
the caller's sequence is untouched); otherwise it appends every element of
the argument in order and returns the new populated length. -/
theorem merge_all_or_nothing (s : AllocatedArray) (xs : List Int)
    (h0 : 0 ≤ s.length) (hl : (s.array.length : Int) = s.size) :
    ((xs.length : Int) + s.length > s.size → s.merge xs = .error .outOfBounds) ∧
    ((xs.length : Int) + s.length ≤ s.size →
      s.merge xs = .ok (s.length + xs.length,
        { size := s.size,
          array := s.array.take s.length.toNat ++ xs ++ s.array.drop (s.length.toNat + xs.length),
          length := s.length + xs.length })) := by
  constructor
  · intro hgt
    rw [AllocatedArray.merge, if_pos hgt]
  · intro hle
    rw [AllocatedArray.merge, if_neg (by omega)]
    rw [pushAll_ok xs s h0 hl (by omega)]

/-- Claim C5 witness: merging `[3,4]` into `[1,2]` with capacity 5. -/
theorem merge_all_or_nothing_witness :
    (0 ≤ (AllocatedArray.mk 5 [1, 2, 0, 0, 0] 2).length ∧
      (((AllocatedArray.mk 5 [1, 2, 0, 0, 0] 2).array.length : Int) =
        (AllocatedArray.mk 5 [1, 2, 0, 0, 0] 2).size)) ∧
    ((([3, 4] : List Int).length : Int) + (AllocatedArray.mk 5 [1, 2, 0, 0, 0] 2).length >
        (AllocatedArray.mk 5 [1, 2, 0, 0, 0] 2).size →
      (AllocatedArray.mk 5 [1, 2, 0, 0, 0] 2).merge [3, 4] = .error .outOfBounds) ∧
    ((([3, 4] : List Int).length : Int) + (AllocatedArray.mk 5 [1, 2, 0, 0, 0] 2).length ≤
        (AllocatedArray.mk 5 [1, 2, 0, 0, 0] 2).size →
      (AllocatedArray.mk 5 [1, 2, 0, 0, 0] 2).merge [3, 4] =
        .ok ((AllocatedArray.mk 5 [1, 2, 0, 0, 0] 2).length + (([3, 4] : List Int).length : Int),
          { size := (AllocatedArray.mk 5 [1, 2, 0, 0, 0] 2).size,
            array := (AllocatedArray.mk 5 [1, 2, 0, 0, 0] 2).array.take
                (AllocatedArray.mk 5 [1, 2, 0, 0, 0] 2).length.toNat ++ [3, 4] ++
              (AllocatedArray.mk 5 [1, 2, 0, 0, 0] 2).array.drop
                ((AllocatedArray.mk 5 [1, 2, 0, 0, 0] 2).length.toNat + ([3, 4] : List Int).length),
            length := (AllocatedArray.mk 5 [1, 2, 0, 0, 0] 2).length +
              (([3, 4] : List Int).length : Int) })) :=
  ⟨⟨by decide, by decide⟩,
    merge_all_or_nothing (AllocatedArray.mk 5 [1, 2, 0, 0, 0] 2) [3, 4] (by decide) (by decide)⟩

/-! ## Lemmas about `between` -/

theorem betweenLoop_skip (start endI : Int) :
    ∀ (fuel : Nat) (a acc : List Int) (i : Int), endI < i →
    AllocatedArray.betweenLoop start endI a acc i fuel = acc := by
  intro fuel
  induction fuel with
  | zero => intro a acc i _; rfl
  | succ fuel ih =>
    intro a acc i h
    rw [AllocatedArray.betweenLoop, if_neg (by omega)]
    exact ih a acc (i + 1) (by omega)

theorem betweenLoop_before (start endI : Int) :
    ∀ (fuel : Nat) (a acc : List Int) (i : Int), i ≤ start → (start - i).toNat ≤ fuel →
    AllocatedArray.betweenLoop start endI a acc i fuel =
      AllocatedArray.betweenLoop start endI a acc start (fuel - (start - i).toNat) := by
  intro fuel
  induction fuel with
  | zero =>
    intro a acc i hi hf
    have hix : i = start := by omega
    subst hix
    simp
  | succ fuel ih =>
    intro a acc i hi hf
    rcases eq_or_lt_of_le hi with hix | hlt
    · subst hix
      simp
    · rw [AllocatedArray.betweenLoop, if_neg (by omega)]
      rw [ih a acc (i + 1) (by omega) (by omega)]
      congr 1
      omega

theorem betweenLoop_main (start endI : Int) (hse : start ≤ endI) :
    ∀ (fuel : Nat) (a acc : List Int) (i : Int), start ≤ i →
    (acc.length : Int) = i - start → endI + 1 - i ≤ (fuel : Int) →
    AllocatedArray.betweenLoop start endI a acc i fuel =
      acc ++ (List.range (endI + 1 - i).toNat).map (fun k : Nat => getAt a (i + (k : Int))) := by
  intro fuel
  induction fuel with
  | zero =>
    intro a acc i _ _ hfuel
    have hz : (endI + 1 - i).toNat = 0 := by omega
    simp [AllocatedArray.betweenLoop, hz]
  | succ fuel ih =>
    intro a acc i hsi hacc hfuel
    by_cases hie : i ≤ endI
    · rw [AllocatedArray.betweenLoop, if_pos ⟨by omega, hie⟩]
      have hjs : jsSet acc (i - start) (getAt a i) = acc ++ [getAt a i] := by
        rw [jsSet, if_neg (by omega)]
        have hidx : (i - start).toNat = acc.length := by omega
        rw [hidx, if_neg (by omega)]
        simp
      rw [hjs]
      have hlen2 : (((acc ++ [getAt a i]).length : Nat) : Int) = i + 1 - start := by
        simp
        omega
      have hfuel2 : endI + 1 - (i + 1) ≤ (fuel : Int) := by
        push_cast at hfuel
        omega
      rw [ih a (acc ++ [getAt a i]) (i + 1) (by omega) hlen2 hfuel2]
      have hm : (endI + 1 - i).toNat = (endI + 1 - (i + 1)).toNat + 1 := by omega
      rw [hm, List.range_succ_eq_map]
      have hfun : ∀ k : Nat,
          getAt a (i + 1 + (k : Int)) = getAt a (i + ((k + 1 : Nat) : Int)) := by
        intro k
        congr 1
        push_cast
        ring
      simp only [List.map_cons, List.map_map, List.append_assoc, List.singleton_append,
        Nat.cast_zero, add_zero]
      congr 2
      apply List.map_congr_left
      intro k _
      simpa [Function.comp] using hfun k
    · rw [AllocatedArray.betweenLoop, if_neg (by omega)]
      rw [betweenLoop_skip start endI fuel a acc (i + 1) (by omega)]
      have hz : (endI + 1 - i).toNat = 0 := by omega
      simp [hz]

/-- Claim C7 counterexample: on an empty sequence the call `between(0, -1)`
fails with `InvalidRangeError`, not `OutOfBoundsError` — the claim's
assertion that every call on an empty sequence fails `IndexOutOfBounds`
is false for negative `end` arguments. -/
theorem between_empty_counterexample :
    AllocatedArray.between ⟨2, [0, 0], 0⟩ 0 (-1) = .error .invalidRange ∧
      Err.invalidRange ≠ Err.outOfBounds := ⟨rfl, by decide⟩

/-- Claim C7 (amended): `between(start, end)` fails `OutOfBounds` exactly
when `start < 0` or `end > populated_length - 1` (on an empty sequence this
covers every call with `start < 0` or `end ≥ 0`, e.g. `between(0,0)`; calls
with `0 ≤ start` and `end < 0` instead fail `InvalidRange`), otherwise fails
`InvalidRange` exactly when `start > end`, and otherwise returns the freshly
allocated inclusive slice `array[start..end]` in order, without mutating the
sequence (in this embedding `between` is a pure function of the state). -/
theorem between_trichotomy (s : AllocatedArray) (start endI : Int) :
    ((start < 0 ∨ endI > s.length - 1) ↔ s.between start endI = .error .outOfBounds) ∧
    (¬(start < 0 ∨ endI > s.length - 1) →
      (start > endI ↔ s.between start endI = .error .invalidRange)) ∧
    (0 ≤ start → start ≤ endI → endI ≤ s.length - 1 →
      s.between start endI =
        .ok ((List.range (endI + 1 - start).toNat).map
          (fun k => s.array.getD (start.toNat + k) 0))) := by
  refine ⟨?_, ?_, ?_⟩
  · by_cases h1 : start < 0 ∨ endI > s.length - 1
    · rw [AllocatedArray.between, if_pos h1]
      simp [h1]
    · rw [AllocatedArray.between, if_neg h1]
      by_cases h2 : start > endI
      · rw [if_pos h2]
        simp [h1]
      · rw [if_neg h2]
        simp [h1]
  · intro h1
    rw [AllocatedArray.between, if_neg h1]
    by_cases h2 : start > endI
    · rw [if_pos h2]
      simp [h2]
    · rw [if_neg h2]
      simp [h2]
  · intro hs hse he
    have h1 : ¬(start < 0 ∨ endI > s.length - 1) := by omega
    rw [AllocatedArray.between, if_neg h1, if_neg (by omega)]
    rw [betweenLoop_before start endI s.length.toNat s.array [] 0 (by omega) (by omega)]
    rw [betweenLoop_main start endI hse (s.length.toNat - (start - 0).toNat) s.array [] start
      (le_refl start) (by simp) (by omega)]
    rw [List.nil_append]
    congr 1
    apply List.map_congr_left
    intro k _
    rw [getAt, if_pos (by omega)]
    congr 1
    omega

/-- Claim C7 witness: the amended theorem evaluated on the spec's example
`[10,20,30,40]` with the call `between(1,2)`. -/
theorem between_trichotomy_witness :
    (((1 : Int) < 0 ∨ (2 : Int) > (AllocatedArray.mk 6 [10, 20, 30, 40, 0, 0] 4).length - 1) ↔
        (AllocatedArray.mk 6 [10, 20, 30, 40, 0, 0] 4).between 1 2 = .error .outOfBounds) ∧
    (¬((1 : Int) < 0 ∨ (2 : Int) > (AllocatedArray.mk 6 [10, 20, 30, 40, 0, 0] 4).length - 1) →
      ((1 : Int) > 2 ↔
        (AllocatedArray.mk 6 [10, 20, 30, 40, 0, 0] 4).between 1 2 = .error .invalidRange)) ∧
    (0 ≤ (1 : Int) → (1 : Int) ≤ 2 → (2 : Int) ≤ (AllocatedArray.mk 6 [10, 20, 30, 40, 0, 0] 4).length - 1 →
      (AllocatedArray.mk 6 [10, 20, 30, 40, 0, 0] 4).between 1 2 =
        .ok ((List.range ((2 : Int) + 1 - 1).toNat).map
          (fun k => (AllocatedArray.mk 6 [10, 20, 30, 40, 0, 0] 4).array.getD ((1 : Int).toNat + k) 0))) :=
  between_trichotomy (AllocatedArray.mk 6 [10, 20, 30, 40, 0, 0] 4) 1 2

/-! ## Lemmas about `reverse` and `sum` -/

theorem arrayStateExt (x y : AllocatedArray) (h1 : x.size = y.size)
    (h2 : x.array = y.array) (h3 : x.length = y.length) : x = y := by
  cases x
  cases y
  simp_all

theorem reverseLoop_length (n : Nat) : ∀ (fuel : Nat) (a : List Int) (i : Nat),
    (AllocatedArray.reverseLoop n a i fuel).length = a.length := by
  intro fuel
  induction fuel with
  | zero => intro a i; rfl
  | succ fuel ih =>
    intro a i
    rw [AllocatedArray.reverseLoop, ih]
    simp [List.length_set]

theorem reverseLoop_getD (n : Nat) : ∀ (fuel : Nat) (a : List Int) (i : Nat),
    i + fuel ≤ n / 2 → n ≤ a.length → ∀ k, k < a.length →
    (AllocatedArray.reverseLoop n a i fuel).getD k 0 =
      if (i ≤ k ∧ k < i + fuel) ∨ (n - (i + fuel) ≤ k ∧ k ≤ n - 1 - i) then
        a.getD (n - 1 - k) 0
      else a.getD k 0 := by
  intro fuel
  induction fuel with
  | zero =>
    intro a i hhalf _ k _
    show a.getD k 0 = _
    split_ifs with h
    · rcases h with ⟨h1, h2⟩ | ⟨h1, h2⟩
      · omega
      · have hk : n - 1 - k = k := by omega
        rw [hk]
    · rfl
  | succ fuel ih =>
    intro a i hhalf hlen k hk
    have hr : i < n - 1 - i := by omega
    have hil : i < a.length := by omega
    have hrl : n - 1 - i < a.length := by omega
    rw [AllocatedArray.reverseLoop]
    have hlen' : ((a.set i (a.getD (n - 1 - i) 0)).set (n - 1 - i) (a.getD i 0)).length
        = a.length := by
      simp [List.length_set]
    have ga' : ∀ m : Nat,
        ((a.set i (a.getD (n - 1 - i) 0)).set (n - 1 - i) (a.getD i 0)).getD m 0 =
          if m = n - 1 - i then a.getD i 0
          else if m = i then a.getD (n - 1 - i) 0
          else a.getD m 0 := by
      intro m
      rw [getD_set, getD_set, List.length_set]
      by_cases h1 : m = n - 1 - i
      · rw [if_pos ⟨h1.symm, by omega⟩, if_pos h1]
      · rw [if_neg (fun hc => h1 hc.1.symm), if_neg h1]
        by_cases h2 : m = i
        · rw [if_pos ⟨h2.symm, by omega⟩, if_pos h2]
        · rw [if_neg (fun hc => h2 hc.1.symm), if_neg h2]
    rw [ih _ (i + 1) (by omega) (by rw [hlen']; omega) k (by rw [hlen']; omega)]
    by_cases hk1 : k = i
    · subst hk1
      rw [if_neg (by omega), if_pos (by left; omega), ga']
      rw [if_neg (by omega), if_pos rfl]
    · by_cases hk2 : k = n - 1 - i
      · subst hk2
        rw [if_neg (by omega), if_pos (by right; omega), ga']
        rw [if_pos rfl]
        have hi : n - 1 - (n - 1 - i) = i := by omega
        rw [hi]
      · have hcond : ((i + 1 ≤ k ∧ k < i + 1 + fuel) ∨
            (n - (i + 1 + fuel) ≤ k ∧ k ≤ n - 1 - (i + 1))) ↔
            ((i ≤ k ∧ k < i + (fuel + 1)) ∨
            (n - (i + (fuel + 1)) ≤ k ∧ k ≤ n - 1 - i)) := by omega
        by_cases hc : (i ≤ k ∧ k < i + (fuel + 1)) ∨
            (n - (i + (fuel + 1)) ≤ k ∧ k ≤ n - 1 - i)
        · rw [if_pos (hcond.mpr hc), if_pos hc, ga']
          rw [if_neg (by omega), if_neg (by omega)]
        · rw [if_neg (fun hx => hc (hcond.mp hx)), if_neg hc, ga']
          rw [if_neg hk2, if_neg hk1]

theorem reverse_getD (s : AllocatedArray) (hw : s.length ≤ (s.array.length : Int))
    (h2 : 2 ≤ s.length) :
    s.reverse = { s with array := AllocatedArray.reverseLoop s.length.toNat s.array 0 (s.length.toNat / 2) } ∧
    s.reverse.array.length = s.array.length ∧
    (∀ k : Nat, k < s.length.toNat →
      s.reverse.array.getD k 0 = s.array.getD (s.length.toNat - 1 - k) 0) ∧
    (∀ k : Nat, s.length.toNat ≤ k →
      s.reverse.array.getD k 0 = s.array.getD k 0) := by
  have hguard : ¬(s.isEmpty || s.containsOne) = true := by
    simp [AllocatedArray.isEmpty, AllocatedArray.containsOne]
    omega
  have hrw : s.reverse = { s with array := AllocatedArray.reverseLoop s.length.toNat s.array 0 (s.length.toNat / 2) } := by
    rw [AllocatedArray.reverse, if_neg hguard]
  have hn : 2 ≤ s.length.toNat := by omega
  have hnl : s.length.toNat ≤ s.array.length := by omega
  refine ⟨hrw, ?_, ?_, ?_⟩
  · rw [hrw]
    exact reverseLoop_length s.length.toNat (s.length.toNat / 2) s.array 0
  · intro k hk
    rw [hrw]
    show (AllocatedArray.reverseLoop s.length.toNat s.array 0 (s.length.toNat / 2)).getD k 0 = _
    rw [reverseLoop_getD s.length.toNat (s.length.toNat / 2) s.array 0 (by omega) hnl k
      (by omega)]
    split_ifs with h
    · rfl
    · have hmid : s.length.toNat - 1 - k = k := by omega
      rw [hmid]
  · intro k hk
    rw [hrw]
    show (AllocatedArray.reverseLoop s.length.toNat s.array 0 (s.length.toNat / 2)).getD k 0 = _
    by_cases hkl : k < s.array.length
    · rw [reverseLoop_getD s.length.toNat (s.length.toNat / 2) s.array 0 (by omega) hnl k hkl]
      rw [if_neg (by omega)]
    · rw [getD_of_length_le _ k (by rw [reverseLoop_length]; omega),
        getD_of_length_le _ k (by omega)]

theorem sumLoop_eq (a : List Int) : ∀ (fuel : Nat) (acc : Int) (i : Nat),
    AllocatedArray.sumLoop a acc i fuel = acc + ∑ k in Finset.range fuel, a.getD (i + k) 0 := by
  intro fuel
  induction fuel with
  | zero => intro acc i; simp [AllocatedArray.sumLoop]
  | succ fuel ih =>
    intro acc i
    rw [AllocatedArray.sumLoop, ih]
    have hsum : ∑ k in Finset.range fuel, a.getD (i + (k + 1)) 0
        = ∑ k in Finset.range fuel, a.getD (i + 1 + k) 0 :=
      Finset.sum_congr rfl (fun k _ => by rw [show i + (k + 1) = i + 1 + k from by omega])
    rw [Finset.sum_range_succ' (fun k => a.getD (i + k) 0) fuel, hsum]
    simp only [Nat.add_zero]
    ring

/-- Claim C8: `reverse()` applied twice restores the state exactly, `sum()`
is invariant under a single `reverse()`, and `reverse()` on an empty or
single-element sequence changes nothing. -/
theorem reverse_involution_and_sum (s : AllocatedArray)
    (hw : s.length ≤ (s.array.length : Int)) :
    s.reverse.reverse = s ∧ s.reverse.sum = s.sum ∧ (s.length ≤ 1 → s.reverse = s) := by
  by_cases hsmall : s.length ≤ 1
  · have hguard : (s.isEmpty || s.containsOne) = true := by
      simp [AllocatedArray.isEmpty, AllocatedArray.containsOne]
      omega
    have hid : s.reverse = s := by rw [AllocatedArray.reverse, if_pos hguard]
    exact ⟨by rw [hid, hid], by rw [hid], fun _ => hid⟩
  · have h2 : 2 ≤ s.length := by omega
    obtain ⟨hrw, hL, hswap, hfix⟩ := reverse_getD s hw h2
    have hlen1 : s.reverse.length = s.length := by rw [hrw]
    have hsize1 : s.reverse.size = s.size := by rw [hrw]
    have hw2 : s.reverse.length ≤ (s.reverse.array.length : Int) := by
      rw [hlen1, hL]
      exact hw
    obtain ⟨hrw2, hL2, hswap2, hfix2⟩ := reverse_getD s.reverse hw2 (by rw [hlen1]; exact h2)
    have hntn : s.reverse.length.toNat = s.length.toNat := by rw [hlen1]
    refine ⟨?_, ?_, fun hcontra => absurd hcontra hsmall⟩
    · apply arrayStateExt
      · rw [hrw2]
        exact hsize1
      · apply List.ext_getElem
        · rw [hL2, hL]
        · intro k hk1 hk2
          rw [← List.getD_eq_getElem s.reverse.reverse.array 0 hk1,
            ← List.getD_eq_getElem s.array 0 hk2]
          by_cases hkn : k < s.length.toNat
          · rw [hswap2 k (by rw [hntn]; exact hkn)]
            rw [hntn]
            rw [hswap (s.length.toNat - 1 - k) (by omega)]
            congr 1
            omega
          · rw [hfix2 k (by omega), hfix k (by omega)]
      · rw [hrw2]
        exact hlen1
    · have hsum_s : s.sum = AllocatedArray.sumLoop s.array 0 0 s.length.toNat := by
        rw [AllocatedArray.sum,
          if_neg (by simp [AllocatedArray.isEmpty]; omega),
          if_neg (by simp [AllocatedArray.containsOne]; omega)]
      have hsum_rev : s.reverse.sum =
          AllocatedArray.sumLoop s.reverse.array 0 0 s.length.toNat := by
        rw [AllocatedArray.sum,
          if_neg (by simp [AllocatedArray.isEmpty]; omega),
          if_neg (by simp [AllocatedArray.containsOne]; omega), hntn]
      rw [hsum_rev, hsum_s, sumLoop_eq, sumLoop_eq]
      simp only [Nat.zero_add, zero_add]
      rw [Finset.sum_congr rfl (fun k hk => hswap k (Finset.mem_range.mp hk))]
      exact Finset.sum_range_reflect (fun k => s.array.getD k 0) s.length.toNat

/-- Claim C8 witness: the state `[1,2,3,4]` with capacity 6. -/
theorem reverse_involution_and_sum_witness :
    ((AllocatedArray.mk 6 [1, 2, 3, 4, 0, 0] 4).length ≤
        ((AllocatedArray.mk 6 [1, 2, 3, 4, 0, 0] 4).array.length : Int)) ∧
    ((AllocatedArray.mk 6 [1, 2, 3, 4, 0, 0] 4).reverse.reverse =
        AllocatedArray.mk 6 [1, 2, 3, 4, 0, 0] 4 ∧
      (AllocatedArray.mk 6 [1, 2, 3, 4, 0, 0] 4).reverse.sum =
        (AllocatedArray.mk 6 [1, 2, 3, 4, 0, 0] 4).sum ∧
      ((AllocatedArray.mk 6 [1, 2, 3, 4, 0, 0] 4).length ≤ 1 →
        (AllocatedArray.mk 6 [1, 2, 3, 4, 0, 0] 4).reverse =
          AllocatedArray.mk 6 [1, 2, 3, 4, 0, 0] 4)) :=
  ⟨by decide, reverse_involution_and_sum (AllocatedArray.mk 6 [1, 2, 3, 4, 0, 0] 4) (by decide)⟩

/-! ## Lemmas about `sort` (bubble sort with early exit) -/

theorem bubbleInner_length : ∀ (fuel : Nat) (a : List Int) (j : Nat) (sw : Bool),
    ((AllocatedArray.bubbleInner a j sw fuel).1).length = a.length := by
  intro fuel
  induction fuel with
  | zero => intro a j sw; rfl
  | succ fuel ih =>
    intro a j sw
    rw [AllocatedArray.bubbleInner]
    by_cases h : a.getD j 0 > a.getD (j + 1) 0
    · rw [if_pos h, ih]
      simp [List.length_set]
    · rw [if_neg h, ih]

theorem bubbleInner_perm : ∀ (fuel : Nat) (a : List Int) (j : Nat) (sw : Bool),
    j + fuel < a.length →
    List.Perm (AllocatedArray.bubbleInner a j sw fuel).1 a := by
  intro fuel
  induction fuel with
  | zero => intro a j sw _; exact List.Perm.refl a
  | succ fuel ih =>
    intro a j sw hlt
    rw [AllocatedArray.bubbleInner]
    by_cases h : a.getD j 0 > a.getD (j + 1) 0
    · rw [if_pos h]
      have hswap := swapAdjPerm a j (by omega)
      have hlen : ((a.set j (a.getD (j + 1) 0)).set (j + 1) (a.getD j 0)).length = a.length := by
        simp [List.length_set]
      exact List.Perm.trans (ih _ (j + 1) true (by rw [hlen]; omega)) hswap
    · rw [if_neg h]
      exact ih a (j + 1) sw (by omega)

theorem bubbleInner_frame : ∀ (fuel : Nat) (a : List Int) (j : Nat) (sw : Bool) (k : Nat),
    (k < j ∨ j + fuel < k) →
    (AllocatedArray.bubbleInner a j sw fuel).1.getD k 0 = a.getD k 0 := by
  intro fuel
  induction fuel with
  | zero => intro a j sw k _; rfl
  | succ fuel ih =>
    intro a j sw k hk
    rw [AllocatedArray.bubbleInner]
    by_cases h : a.getD j 0 > a.getD (j + 1) 0
    · rw [if_pos h, ih _ (j + 1) true k (by omega)]
      rw [getD_set, if_neg (by omega), getD_set, if_neg (by omega)]
    · rw [if_neg h]
      exact ih a (j + 1) sw k (by omega)

theorem bubbleInner_sw : ∀ (fuel : Nat) (a : List Int) (j : Nat),
    (AllocatedArray.bubbleInner a j true fuel).2 = true := by
  intro fuel
  induction fuel with
  | zero => intro a j; rfl
  | succ fuel ih =>
    intro a j
    rw [AllocatedArray.bubbleInner]
    by_cases h : a.getD j 0 > a.getD (j + 1) 0
    · rw [if_pos h]
      exact ih _ (j + 1)
    · rw [if_neg h]
      exact ih a (j + 1)

theorem bubbleInner_noswap : ∀ (fuel : Nat) (a : List Int) (j : Nat),
    (AllocatedArray.bubbleInner a j false fuel).2 = false →
    (AllocatedArray.bubbleInner a j false fuel).1 = a ∧
      ∀ k, j ≤ k → k < j + fuel → a.getD k 0 ≤ a.getD (k + 1) 0 := by
  intro fuel
  induction fuel with
  | zero => intro a j _; exact ⟨rfl, fun k h1 h2 => by omega⟩
  | succ fuel ih =>
    intro a j hsw
    rw [AllocatedArray.bubbleInner] at hsw ⊢
    by_cases h : a.getD j 0 > a.getD (j + 1) 0
    · rw [if_pos h] at hsw
      rw [bubbleInner_sw fuel _ (j + 1)] at hsw
      exact absurd hsw (by simp)
    · rw [if_neg h] at hsw ⊢
      obtain ⟨heq, hadj⟩ := ih a (j + 1) hsw
      refine ⟨heq, fun k hk1 hk2 => ?_⟩
      rcases Nat.eq_or_lt_of_le hk1 with hkj | hkj
      · subst hkj
        omega
      · exact hadj k (by omega) (by omega)

theorem bubbleInner_max : ∀ (fuel : Nat) (a : List Int) (j : Nat) (sw : Bool),
    j + fuel < a.length → (∀ k, k ≤ j → a.getD k 0 ≤ a.getD j 0) →
    ∀ k, k ≤ j + fuel →
    (AllocatedArray.bubbleInner a j sw fuel).1.getD k 0 ≤
      (AllocatedArray.bubbleInner a j sw fuel).1.getD (j + fuel) 0 := by
  intro fuel
  induction fuel with
  | zero => intro a j sw _ hinv k hk; exact hinv k (by omega)
  | succ fuel ih =>
    intro a j sw hlt hinv k hk
    rw [AllocatedArray.bubbleInner]
    by_cases h : a.getD j 0 > a.getD (j + 1) 0
    · rw [if_pos h]
      have hjl : j < a.length := by omega
      have hj1l : j + 1 < a.length := by omega
      have ga' : ∀ m : Nat,
          ((a.set j (a.getD (j + 1) 0)).set (j + 1) (a.getD j 0)).getD m 0 =
            if m = j + 1 then a.getD j 0
            else if m = j then a.getD (j + 1) 0
            else a.getD m 0 := by
        intro m
        rw [getD_set, getD_set, List.length_set]
        by_cases h1 : m = j + 1
        · rw [if_pos ⟨h1.symm, by omega⟩, if_pos h1]
        · rw [if_neg (fun hc => h1 hc.1.symm), if_neg h1]
          by_cases h2 : m = j
          · rw [if_pos ⟨h2.symm, by omega⟩, if_pos h2]
          · rw [if_neg (fun hc => h2 hc.1.symm), if_neg h2]
      have hinv' : ∀ m, m ≤ j + 1 →
          ((a.set j (a.getD (j + 1) 0)).set (j + 1) (a.getD j 0)).getD m 0 ≤
            ((a.set j (a.getD (j + 1) 0)).set (j + 1) (a.getD j 0)).getD (j + 1) 0 := by
        intro m hm
        rw [ga' m, ga' (j + 1), if_pos rfl]
        by_cases h1 : m = j + 1
        · rw [if_pos h1]
        · rw [if_neg h1]
          by_cases h2 : m = j
          · rw [if_pos h2]
            omega
          · rw [if_neg h2]
            exact le_trans (hinv m (by omega)) (by omega)
      have hlen' : ((a.set j (a.getD (j + 1) 0)).set (j + 1) (a.getD j 0)).length
          = a.length := by
        simp [List.length_set]
      have hres := ih _ (j + 1) true (by rw [hlen']; omega) hinv' k (by omega)
      have hidx : j + 1 + fuel = j + (fuel + 1) := by omega
      rw [hidx] at hres
      exact hres
    · rw [if_neg h]
      have hinv' : ∀ m, m ≤ j + 1 → a.getD m 0 ≤ a.getD (j + 1) 0 := by
        intro m hm
        rcases Nat.eq_or_lt_of_le hm with hm1 | hm1
        · subst hm1
          exact le_refl _
        · exact le_trans (hinv m (by omega)) (by omega)
      have hres := ih a (j + 1) sw (by omega) hinv' k (by omega)
      have hidx : j + 1 + fuel = j + (fuel + 1) := by omega
      rw [hidx] at hres
      exact hres

theorem bubbleInner_bound : ∀ (fuel : Nat) (a : List Int) (j : Nat) (sw : Bool) (C : Int),
    (∀ k, k ≤ j + fuel → a.getD k 0 ≤ C) →
    ∀ k, k ≤ j + fuel → (AllocatedArray.bubbleInner a j sw fuel).1.getD k 0 ≤ C := by
  intro fuel
  induction fuel with
  | zero => intro a j sw C hbnd k hk; exact hbnd k hk
  | succ fuel ih =>
    intro a j sw C hbnd k hk
    rw [AllocatedArray.bubbleInner]
    by_cases h : a.getD j 0 > a.getD (j + 1) 0
    · rw [if_pos h]
      have hbnd' : ∀ m, m ≤ j + 1 + fuel →
          ((a.set j (a.getD (j + 1) 0)).set (j + 1) (a.getD j 0)).getD m 0 ≤ C := by
        intro m hm
        rw [getD_set]
        split_ifs with h1
        · exact hbnd j (by omega)
        · rw [getD_set]
          split_ifs with h2
          · exact hbnd (j + 1) (by omega)
          · exact hbnd m (by omega)
      exact ih _ (j + 1) true C hbnd' k (by omega)
    · rw [if_neg h]
      exact ih a (j + 1) sw C (fun m hm => hbnd m (by omega)) k (by omega)

theorem sorted_of_length_le_one (l : List Int) (h : l.length ≤ 1) :
    List.Sorted (· ≤ ·) l := by
  cases l with
  | nil => exact List.sorted_nil
  | cons x t =>
    cases t with
    | nil => exact List.sorted_singleton x
    | cons y u => simp at h

theorem bubbleOuter_correct (n : Nat) : ∀ (stp : Nat) (a : List Int), n ≤ a.length → stp < n →
    (∀ k m, k ≤ m → stp < m → m < n → a.getD k 0 ≤ a.getD m 0) →
    ((AllocatedArray.bubbleOuter a stp).length = a.length ∧
      List.Perm (AllocatedArray.bubbleOuter a stp) a ∧
      (∀ k, n ≤ k → (AllocatedArray.bubbleOuter a stp).getD k 0 = a.getD k 0) ∧
      (∀ k m, k ≤ m → m < n →
        (AllocatedArray.bubbleOuter a stp).getD k 0 ≤
          (AllocatedArray.bubbleOuter a stp).getD m 0)) := by
  intro stp
  induction stp with
  | zero =>
    intro a _ _ hsettled
    refine ⟨rfl, List.Perm.refl a, fun k _ => rfl, fun k m hkm hmn => ?_⟩
    by_cases hm : m = 0
    · subst hm
      have hk : k = 0 := by omega
      subst hk
      exact le_refl _
    · exact hsettled k m hkm (by omega) hmn
  | succ stp ih =>
    intro a hn hstp hsettled
    rcases hsplit : AllocatedArray.bubbleInner a 0 false (stp + 1) with ⟨a2, sw⟩
    have h1 : (AllocatedArray.bubbleInner a 0 false (stp + 1)).1 = a2 := by rw [hsplit]
    have h2 : (AllocatedArray.bubbleInner a 0 false (stp + 1)).2 = sw := by rw [hsplit]
    have hstoplt : 0 + (stp + 1) < a.length := by omega
    have hlen2 : a2.length = a.length := by
      rw [← h1]
      exact bubbleInner_length (stp + 1) a 0 false
    have hperm2 : List.Perm a2 a := by
      rw [← h1]
      exact bubbleInner_perm (stp + 1) a 0 false hstoplt
    have hframe2 : ∀ k, stp + 1 < k → a2.getD k 0 = a.getD k 0 := by
      intro k hk
      rw [← h1]
      exact bubbleInner_frame (stp + 1) a 0 false k (by omega)
    have hmax2 : ∀ k, k ≤ stp + 1 → a2.getD k 0 ≤ a2.getD (stp + 1) 0 := by
      intro k hk
      have hinv0 : ∀ j, j ≤ 0 → a.getD j 0 ≤ a.getD 0 0 := by
        intro j hj
        have hj0 : j = 0 := by omega
        subst hj0
        exact le_refl _
      have hres := bubbleInner_max (stp + 1) a 0 false hstoplt hinv0 k (by omega)
      rw [h1] at hres
      have hidx : 0 + (stp + 1) = stp + 1 := by omega
      rw [hidx] at hres
      exact hres
    have hsettled2 : ∀ k m, k ≤ m → stp < m → m < n → a2.getD k 0 ≤ a2.getD m 0 := by
      intro k m hkm hstpm hmn
      by_cases hm : m = stp + 1
      · subst hm
        exact hmax2 k hkm
      · have hm2 : stp + 1 < m := by omega
        have hgm : a2.getD m 0 = a.getD m 0 := hframe2 m hm2
        by_cases hkc : k ≤ stp + 1
        · have hbnd : ∀ j, j ≤ 0 + (stp + 1) → a.getD j 0 ≤ a.getD m 0 := by
            intro j hj
            exact hsettled j m (by omega) (by omega) hmn
          have := bubbleInner_bound (stp + 1) a 0 false (a.getD m 0) hbnd k (by omega)
          rw [h1] at this
          rw [hgm]
          exact this
        · have hgk : a2.getD k 0 = a.getD k 0 := hframe2 k (by omega)
          rw [hgk, hgm]
          exact hsettled k m hkm (by omega) hmn
    cases sw with
    | true =>
      have hred : AllocatedArray.bubbleOuter a (stp + 1) = AllocatedArray.bubbleOuter a2 stp := by
        rw [AllocatedArray.bubbleOuter, hsplit]
      obtain ⟨ihL, ihP, ihF, ihS⟩ := ih a2 (by omega) (by omega) hsettled2
      rw [hred]
      refine ⟨ihL.trans hlen2, ihP.trans hperm2, fun k hk => ?_, ihS⟩
      rw [ihF k hk]
      exact hframe2 k (by omega)
    | false =>
      have hred : AllocatedArray.bubbleOuter a (stp + 1) = a2 := by
        rw [AllocatedArray.bubbleOuter, hsplit]
      obtain ⟨heq, hadj⟩ := bubbleInner_noswap (stp + 1) a 0 h2
      have ha2 : a2 = a := by rw [← h1, heq]
      rw [hred, ha2]
      refine ⟨rfl, List.Perm.refl a, fun k _ => rfl, fun k m hkm hmn => ?_⟩
      by_cases hm : m ≤ stp + 1
      · exact chainLe a (stp + 1) (fun k hk => hadj k (by omega) (by omega)) k m hkm hm
      · exact hsettled k m hkm (by omega) hmn

/-- Claim C6: `sort()` rearranges the populated region `[0, populated_length)`
in place into non-decreasing order — the result's populated prefix is a
permutation of the previous one — leaves `populated_length`, the capacity and
the unpopulated suffix unchanged, and on an empty or single-element sequence
returns exactly `0` immediately without mutating anything. -/
theorem sort_correct (s : AllocatedArray) (hw : s.length ≤ (s.array.length : Int)) :
    ((s.sort).2.length = s.length ∧ (s.sort).2.size = s.size) ∧
    List.Sorted (· ≤ ·) ((s.sort).2.array.take s.length.toNat) ∧
    List.Perm ((s.sort).2.array.take s.length.toNat) (s.array.take s.length.toNat) ∧
    (s.sort).2.array.drop s.length.toNat = s.array.drop s.length.toNat ∧
    (s.length ≤ 1 → s.sort = (some 0, s)) := by
  by_cases hsmall : s.length ≤ 1
  · have hguard : (s.isEmpty || s.containsOne) = true := by
      simp [AllocatedArray.isEmpty, AllocatedArray.containsOne]
      omega
    have hid : s.sort = (some 0, s) := by rw [AllocatedArray.sort, if_pos hguard]
    rw [hid]
    refine ⟨⟨rfl, rfl⟩, ?_, List.Perm.refl _, rfl, fun _ => rfl⟩
    exact sorted_of_length_le_one _ (by rw [List.length_take]; omega)
  · have h2 : 2 ≤ s.length := by omega
    have hguard : ¬(s.isEmpty || s.containsOne) = true := by
      simp [AllocatedArray.isEmpty, AllocatedArray.containsOne]
      omega
    have hsort : s.sort =
        (none, { s with array := AllocatedArray.bubbleOuter s.array (s.length.toNat - 1) }) := by
      rw [AllocatedArray.sort, if_neg hguard]
    have harr : (s.sort).2.array = AllocatedArray.bubbleOuter s.array (s.length.toNat - 1) := by
      rw [hsort]
    have hn2 : 2 ≤ s.length.toNat := by omega
    have hnl : s.length.toNat ≤ s.array.length := by omega
    obtain ⟨hLen, hPerm, hFrame, hSorted⟩ :=
      bubbleOuter_correct s.length.toNat (s.length.toNat - 1) s.array hnl (by omega)
        (fun k m hkm hm hmn => by omega)
    have hdrop : (s.sort).2.array.drop s.length.toNat = s.array.drop s.length.toNat := by
      rw [harr]
      apply List.ext_getElem
      · rw [List.length_drop, List.length_drop, hLen]
      · intro i hi hj
        rw [List.length_drop] at hi hj
        rw [List.getElem_drop, List.getElem_drop]
        rw [← List.getD_eq_getElem (AllocatedArray.bubbleOuter s.array (s.length.toNat - 1)) 0
          (by omega), ← List.getD_eq_getElem s.array 0 (by omega)]
        exact hFrame (s.length.toNat + i) (by omega)
    refine ⟨⟨by rw [hsort], by rw [hsort]⟩, ?_, ?_, hdrop,
      fun hcontra => absurd hcontra hsmall⟩
    · rw [harr]
      apply List.pairwise_iff_get.mpr
      intro i j hij
      have htlen : (List.take s.length.toNat
          (AllocatedArray.bubbleOuter s.array (s.length.toNat - 1))).length
          = s.length.toNat := by
        rw [List.length_take]
        omega
      have hi : (i : Nat) < s.length.toNat := by
        have hil := i.isLt
        omega
      have hj : (j : Nat) < s.length.toNat := by
        have hjl := j.isLt
        omega
      rw [List.get_eq_getElem, List.get_eq_getElem, List.getElem_take, List.getElem_take]
      rw [← List.getD_eq_getElem (AllocatedArray.bubbleOuter s.array (s.length.toNat - 1)) 0
        (by omega), ← List.getD_eq_getElem (AllocatedArray.bubbleOuter s.array
        (s.length.toNat - 1)) 0 (by omega)]
      exact hSorted i j (le_of_lt hij) hj
    · have hfull : List.Perm (s.sort).2.array s.array := by
        rw [harr]
        exact hPerm
      have hsplit_b : (s.sort).2.array = (s.sort).2.array.take s.length.toNat ++
          (s.sort).2.array.drop s.length.toNat := (List.take_append_drop _ _).symm
      have hsplit_a : s.array = s.array.take s.length.toNat ++
          s.array.drop s.length.toNat := (List.take_append_drop _ _).symm
      rw [hsplit_b, hsplit_a, hdrop] at hfull
      exact (List.perm_append_right_iff _).mp hfull

/-- Claim C6 witness: the state `[5,1,4,2,3]` with capacity 10 (the test
suite's own sort example). -/
theorem sort_correct_witness :
    ((AllocatedArray.mk 10 [5, 1, 4, 2, 3, 0, 0, 0, 0, 0] 5).length ≤
        ((AllocatedArray.mk 10 [5, 1, 4, 2, 3, 0, 0, 0, 0, 0] 5).array.length : Int)) ∧
    ((((AllocatedArray.mk 10 [5, 1, 4, 2, 3, 0, 0, 0, 0, 0] 5).sort).2.length =
          (AllocatedArray.mk 10 [5, 1, 4, 2, 3, 0, 0, 0, 0, 0] 5).length ∧
        ((AllocatedArray.mk 10 [5, 1, 4, 2, 3, 0, 0, 0, 0, 0] 5).sort).2.size =
          (AllocatedArray.mk 10 [5, 1, 4, 2, 3, 0, 0, 0, 0, 0] 5).size) ∧
      List.Sorted (· ≤ ·) (((AllocatedArray.mk 10 [5, 1, 4, 2, 3, 0, 0, 0, 0, 0] 5).sort).2.array.take
        (AllocatedArray.mk 10 [5, 1, 4, 2, 3, 0, 0, 0, 0, 0] 5).length.toNat) ∧
      List.Perm (((AllocatedArray.mk 10 [5, 1, 4, 2, 3, 0, 0, 0, 0, 0] 5).sort).2.array.take
          (AllocatedArray.mk 10 [5, 1, 4, 2, 3, 0, 0, 0, 0, 0] 5).length.toNat)
        ((AllocatedArray.mk 10 [5, 1, 4, 2, 3, 0, 0, 0, 0, 0] 5).array.take
          (AllocatedArray.mk 10 [5, 1, 4, 2, 3, 0, 0, 0, 0, 0] 5).length.toNat) ∧
      ((AllocatedArray.mk 10 [5, 1, 4, 2, 3, 0, 0, 0, 0, 0] 5).sort).2.array.drop
          (AllocatedArray.mk 10 [5, 1, 4, 2, 3, 0, 0, 0, 0, 0] 5).length.toNat =
        (AllocatedArray.mk 10 [5, 1, 4, 2, 3, 0, 0, 0, 0, 0] 5).array.drop
          (AllocatedArray.mk 10 [5, 1, 4, 2, 3, 0, 0, 0, 0, 0] 5).length.toNat ∧
      ((AllocatedArray.mk 10 [5, 1, 4, 2, 3, 0, 0, 0, 0, 0] 5).length ≤ 1 →
        (AllocatedArray.mk 10 [5, 1, 4, 2, 3, 0, 0, 0, 0, 0] 5).sort =
          (some 0, AllocatedArray.mk 10 [5, 1, 4, 2, 3, 0, 0, 0, 0, 0] 5))) :=
  ⟨by decide, sort_correct (AllocatedArray.mk 10 [5, 1, 4, 2, 3, 0, 0, 0, 0, 0] 5) (by decide)⟩
